import Mathlib

/-!
Shallow embedding of `ModelBasedAdapter.create_simulation_volume`
(`src/simpa/core/simulation_modules/volume_creation_module/model_based_adapter.py`).

Every torch operation in the compositing loop (comparisons, masked
assignment, masked in-place addition, `torch.min` of a stack) acts
elementwise over the voxel grid, and the per-structure bookkeeping reads and
writes each voxel independently.  We therefore model the computation at one
fixed voxel: tensors become rational numbers (exact real arithmetic in place
of float32), boolean mask tensors become `Bool`, and the `volumes` python
dict becomes an association list from property key to the value at the
modelled voxel.  `torch.any` in the final consistency check is then the
check at this voxel.  Python exceptions (`ValueError`, `AssertionError`)
become `Except.error` carrying the message string the source constructs.
-/

namespace ModelBasedAdapter

/-- `Tags.DATA_FIELD_SEGMENTATION`: the key of the categorical
(segmentation) field, treated specially in the accumulation loop. -/
def segmentationKey : String := "seg"

/-- The runtime type of one entry of `structure_properties`: a per-voxel
`torch.Tensor` (its value at the modelled voxel), a python scalar
(`float`, `np.float64`, `int`, `np.int64`), or any other python type
(carrying its type name), which the source rejects. -/
inductive PropValue where
  | tensor (v : ℚ)
  | scalar (v : ℚ)
  | other (typeName : String)
deriving DecidableEq

/-- The numeric value an entry contributes at the modelled voxel. -/
def PropValue.val : PropValue → ℚ
  | .tensor v => v
  | .scalar v => v
  | .other _ => 0

/-- One structure, as the compositing loop sees it at the modelled voxel:
`structure.geometrical_volume` at the voxel, and the
`structure.properties_for_wavelength(...)` lookup (python `None` maps to
`none`). -/
structure Structure where
  occupancy : ℚ
  props : String → Option PropValue

/-- Value of `volumes[key]` at the modelled voxel (keys are created by
`create_empty_volumes`, so lookups in the source always hit). -/
def lookupVol : List (String × ℚ) → String → ℚ
  | [], _ => 0
  | p :: rest, key => if p.1 = key then p.2 else lookupVol rest key

/-- In-place update `volumes[key] = v` at the modelled voxel (first entry
with that key is replaced; the key set never changes). -/
def setVol : List (String × ℚ) → String → ℚ → List (String × ℚ)
  | [], _, _ => []
  | p :: rest, key, v => if p.1 = key then (key, v) :: rest else p :: setVol rest key v

/-- The mutable per-voxel state of the compositing loop: the `volumes` dict
plus the two bookkeeping tensors `global_volume_fractions` and
`max_added_fractions` at the modelled voxel. -/
structure VoxelState where
  volumes : List (String × ℚ)
  globalVolumeFraction : ℚ
  maxAddedFraction : ℚ
deriving DecidableEq

/-- `create_empty_volumes`: zero-initialized field per property key. -/
def createEmptyVolumes (keys : List String) : List (String × ℚ) :=
  keys.map (fun k => (k, 0))

/-- State before the structure loop (lines 62-65): zero-initialized volumes
and zero bookkeeping fields. -/
def initState (keys : List String) : VoxelState :=
  { volumes := createEmptyVolumes keys
    globalVolumeFraction := 0
    maxAddedFraction := 0 }

/-- The message of the `ValueError` raised at lines 104-105 for an
unsupported property type (the f-string interpolates only the type). -/
def unsupportedPropertyMessage (typeName : String) : String :=
  "Unsupported type of structure property. Was " ++ typeName ++ "."

/-- The message of the `AssertionError` raised at lines 110-111 (the two
adjacent source string literals concatenate without a space). -/
def invalidCompositionMessage : String :=
  "Invalid Molecular composition! The volume fractions of all molecules must beexactly 100%!"

/-- Lines 89-105, one iteration of `for key in volumes.keys()`:
skip absent properties, overwrite-and-record for the segmentation key
(lines 92-96), fraction-weighted accumulation for tensor or scalar values
(lines 97-102), `ValueError` otherwise (lines 103-105). -/
def processKey (s : Structure) (mask : Bool) (addedVolumeFraction : ℚ)
    (st : VoxelState) (key : String) : Except String VoxelState :=
  match s.props key with
  | none => .ok st
  | some pv =>
    if key = segmentationKey then
      if decide (st.maxAddedFraction < addedVolumeFraction) && mask then
        .ok { st with
              volumes := setVol st.volumes key pv.val
              maxAddedFraction := addedVolumeFraction }
      else
        .ok st
    else
      match pv with
      | .tensor v =>
        .ok { st with
              volumes := setVol st.volumes key
                (if mask then lookupVol st.volumes key + addedVolumeFraction * v
                 else lookupVol st.volumes key) }
      | .scalar v =>
        .ok { st with
              volumes := setVol st.volumes key
                (if mask then lookupVol st.volumes key + addedVolumeFraction * v
                 else lookupVol st.volumes key) }
      | .other t => .error (unsupportedPropertyMessage t)

/-- The whole `for key in volumes.keys()` loop; a raised `ValueError`
aborts the remaining iterations. -/
def processKeys (s : Structure) (mask : Bool) (addedVolumeFraction : ℚ) :
    VoxelState → List String → Except String VoxelState
  | st, [] => .ok st
  | st, key :: rest =>
    match processKey s mask addedVolumeFraction st key with
    | .error e => .error e
    | .ok st' => processKeys s mask addedVolumeFraction st' rest

/-- Line 77: `mask = (structure_volume_fractions > 0) & (global_volume_fractions < 1)`. -/
def activeMask (st : VoxelState) (s : Structure) : Bool :=
  decide (0 < s.occupancy) && decide (st.globalVolumeFraction < 1)

/-- Lines 78-88: the `added_volume_fraction` tensor at the modelled voxel.
Python operator precedence parses `added_volume_fraction <= 1 & mask`
(lines 80-81) as `added_volume_fraction <= (1 & mask)`, i.e. the threshold
is `1` where `mask` holds and `0` elsewhere; lines 83-88 then clamp values
above `1` to `min(1 - global_volume_fractions, structure_volume_fractions)`. -/
def addedVolumeFraction (globalVolumeFraction occupancy : ℚ) (mask : Bool) : ℚ :=
  let added0 := globalVolumeFraction + occupancy
  let added1 := if added0 ≤ (if mask then (1 : ℚ) else 0) then occupancy else added0
  if 1 < added1 then min (1 - globalVolumeFraction) occupancy else added1

/-- Lines 68-107, the body of the structure loop for one structure:
compute the mask and the newly added fraction, run the property loop, and
(line 107) add the newly added fraction into `global_volume_fractions` at
masked voxels. -/
def processStructure (st : VoxelState) (s : Structure) : Except String VoxelState :=
  let mask := activeMask st s
  let added := addedVolumeFraction st.globalVolumeFraction s.occupancy mask
  match processKeys s mask added st (st.volumes.map Prod.fst) with
  | .error e => .error e
  | .ok st' =>
    .ok { st' with
          globalVolumeFraction :=
            st'.globalVolumeFraction + (if mask then added else 0) }

/-- The structure loop over the priority-sorted structure sequence; a
raised exception aborts the remaining structures. -/
def runStructures : VoxelState → List Structure → Except String VoxelState
  | st, [] => .ok st
  | st, s :: rest =>
    match processStructure st s with
    | .error e => .error e
    | .ok st' => runStructures st' rest

/-- Line 109 at the modelled voxel: the `AssertionError` fires iff
`global_volume_fractions > 1` and `abs(global_volume_fractions) < 1e-5`
both hold there. -/
def volumeFractionsCheckTriggers (g : ℚ) : Bool :=
  decide (1 < g) && decide (|g| < 1 / 100000)

/-- The returned `volumes` dict after lines 113-115: same keys and values,
converted from device-resident float32 tensors to host numpy arrays of
dtype `np.float64` (an exact widening, so values are unchanged; the dtype
and memory location are carried as flags). -/
structure OutputVolumes where
  values : List (String × ℚ)
  dtypeIsFloat64 : Bool
  onHost : Bool
deriving DecidableEq

/-- Lines 113-115: `volumes[key].cpu().numpy().astype(np.float64)`. -/
def materializeOutputs (st : VoxelState) : OutputVolumes :=
  { values := st.volumes
    dtypeIsFloat64 := true
    onHost := true }

/-- `create_simulation_volume`, lines 62-117, at the modelled voxel:
run the structure loop from zero-initialized state, apply the final
consistency check (lines 109-111), and materialize the outputs. -/
def createSimulationVolume (keys : List String) (structures : List Structure) :
    Except String OutputVolumes :=
  match runStructures (initState keys) structures with
  | .error e => .error e
  | .ok st =>
    if volumeFractionsCheckTriggers st.globalVolumeFraction then
      .error invalidCompositionMessage
    else
      .ok (materializeOutputs st)

/-- The fraction of the modelled voxel newly claimed by a structure, stated
the way the spec describes it (sections 4.2.1-4.2.4): zero when inactive,
the full occupancy when it fits, the clamped remainder otherwise. -/
def newlyClaimedFraction (g : ℚ) (s : Structure) : ℚ :=
  if 0 < s.occupancy ∧ g < 1 then
    (if g + s.occupancy ≤ 1 then s.occupancy else min (1 - g) s.occupancy)
  else 0

/-- Whether one character list starts with another. -/
def charsStartWith : List Char → List Char → Bool
  | [], _ => true
  | _ :: _, [] => false
  | a :: as, b :: bs => a = b && charsStartWith as bs

/-- Whether a character list occurs contiguously inside another. -/
def charsContain (needle : List Char) : List Char → Bool
  | [] => needle.isEmpty
  | b :: bs => charsStartWith needle (b :: bs) || charsContain needle bs

/-- Whether `needle` occurs as a substring of `hay`; used to state that an
error message does or does not mention a given name. -/
def strContains (hay needle : String) : Bool :=
  charsContain needle.toList hay.toList

/-- The deformation settings stored under `Tags.DEFORMED_LAYERS_SETTINGS`. -/
structure DeformationSettings where
  seed : ℕ
  boundsXMm : ℚ
  boundsYMm : ℚ
deriving DecidableEq

/-- Modelled from the spec: `create_deformation_settings` lives in
`simpa.utils`, outside `src/`.  Per spec section 9, the source reseeds the
process-wide random generator with `Tags.RANDOM_SEED` immediately before
generating the deformation geometry so that repeated runs are reproducible;
we therefore model the generated geometry as a deterministic value of the
seed and the volume bounds passed at lines 54-60. -/
def create_deformation_settings (seed : ℕ) (boundsXMm boundsYMm : ℚ) :
    DeformationSettings :=
  { seed := seed, boundsXMm := boundsXMm, boundsYMm := boundsYMm }

/-- The component settings consulted at lines 50-60. -/
structure ComponentSettings where
  simulateDeformedLayers : Bool
  deformedLayersSettings : Option DeformationSettings
deriving DecidableEq

/-- The global settings consulted at lines 54-60. -/
structure GlobalSettings where
  randomSeed : ℕ
  dimVolumeXMm : ℚ
  dimVolumeYMm : ℚ
deriving DecidableEq

/-- Lines 50-60: when `Tags.SIMULATE_DEFORMED_LAYERS` is set and no
deformation settings exist yet, seed the generator and store freshly
generated deformation settings. -/
def resolveDeformedLayersSettings (gs : GlobalSettings) (cs : ComponentSettings) :
    ComponentSettings :=
  if cs.simulateDeformedLayers then
    match cs.deformedLayersSettings with
    | none =>
      let generated := create_deformation_settings gs.randomSeed gs.dimVolumeXMm gs.dimVolumeYMm
      { cs with deformedLayersSettings := some generated }
    | some _ => cs
  else cs

/-- Lines 48-117 including the deformation preamble: the updated component
settings together with the composition result. -/
def createSimulationVolumeFull (gs : GlobalSettings) (cs : ComponentSettings)
    (keys : List String) (structures : List Structure) :
    ComponentSettings × Except String OutputVolumes :=
  (resolveDeformedLayersSettings gs cs, createSimulationVolume keys structures)

/-- The segmentation label a structure writes (the value of its
segmentation property at the modelled voxel). -/
def segLabel (s : Structure) : ℚ :=
  match s.props segmentationKey with
  | some pv => pv.val
  | none => 0

/-- The sequence of per-voxel fractions the structures of a run claim, in
processing order, starting from cumulative occupancy `g`. -/
def claimedFractions (g : ℚ) : List Structure → List ℚ
  | [] => []
  | s :: rest =>
    newlyClaimedFraction g s :: claimedFractions (g + newlyClaimedFraction g s) rest

/-! ### Concrete fixtures for closed-form evaluations -/

/-- A structure with full occupancy and no properties. -/
def fixtureFullNoProps : Structure :=
  { occupancy := 1, props := fun _ => none }

/-- A structure with occupancy 2 and no properties. -/
def fixtureDoubleNoProps : Structure :=
  { occupancy := 2, props := fun _ => none }

/-- A structure with zero occupancy and no properties. -/
def fixtureZeroOccupancy : Structure :=
  { occupancy := 0, props := fun _ => none }

/-- A fully occupying structure with segmentation label 7. -/
def fixtureSegSeven : Structure :=
  { occupancy := 1
    props := fun k => if k = segmentationKey then some (.scalar 7) else none }

/-- A fully occupying structure with segmentation label 9. -/
def fixtureSegNine : Structure :=
  { occupancy := 1
    props := fun k => if k = segmentationKey then some (.scalar 9) else none }

/-- A fully occupying structure with scalar absorption value 2. -/
def fixtureMuaTwo : Structure :=
  { occupancy := 1
    props := fun k => if k = "mua" then some (.scalar 2) else none }

/-- A structure whose absorption property has an unsupported python type. -/
def fixtureBadMua : Structure :=
  { occupancy := 1
    props := fun k => if k = "mua" then some (.other "str") else none }

/-- A structure like `fixtureBadMua` but under a differently named key. -/
def fixtureBadSos : Structure :=
  { occupancy := 1
    props := fun k => if k = "sos" then some (.other "str") else none }

/-- The state after `fixtureSegSeven` has fully claimed the voxel. -/
def fixtureSegSevenState : VoxelState :=
  { volumes := [(segmentationKey, 7)], globalVolumeFraction := 1, maxAddedFraction := 1 }

/-- A state with a pre-existing accumulated absorption value. -/
def fixtureMuaFiveState : VoxelState :=
  { volumes := [("mua", 5)], globalVolumeFraction := 0, maxAddedFraction := 0 }

/-! ### Association-list lemmas -/

theorem setVol_map_fst (vs : List (String × ℚ)) (k : String) (v : ℚ) :
    (setVol vs k v).map Prod.fst = vs.map Prod.fst := by
  induction vs with
  | nil => rfl
  | cons p rest ih =>
    simp only [setVol]
    by_cases h : p.1 = k
    · simp [h]
    · simp [h, ih]

theorem lookupVol_setVol_ne (vs : List (String × ℚ)) (k : String) (v : ℚ)
    (k2 : String) (h : k ≠ k2) :
    lookupVol (setVol vs k v) k2 = lookupVol vs k2 := by
  induction vs with
  | nil => rfl
  | cons p rest ih =>
    simp only [setVol]
    by_cases hp : p.1 = k
    · simp [lookupVol, hp, h]
    · simp only [if_neg hp, lookupVol, ih]

theorem setVol_lookupVol_self (vs : List (String × ℚ)) (k : String) :
    setVol vs k (lookupVol vs k) = vs := by
  induction vs with
  | nil => rfl
  | cons p rest ih =>
    simp only [setVol, lookupVol]
    by_cases hp : p.1 = k
    · simp only [if_pos hp]
      rw [← hp]
    · simp only [if_neg hp, ih]

theorem lookupVol_setVol_self (vs : List (String × ℚ)) (k : String) (v : ℚ)
    (h : k ∈ vs.map Prod.fst) :
    lookupVol (setVol vs k v) k = v := by
  induction vs with
  | nil => simp at h
  | cons p rest ih =>
    simp only [setVol]
    by_cases hp : p.1 = k
    · simp [hp, lookupVol]
    · simp only [if_neg hp, lookupVol]
      apply ih
      simp only [List.map_cons, List.mem_cons] at h
      rcases h with h | h
      · exact absurd h.symm hp
      · exact h

/-! ### Per-key step lemmas -/

theorem processKey_ok_global {s : Structure} {m : Bool} {a : ℚ} {st st2 : VoxelState}
    {key : String} (h : processKey s m a st key = .ok st2) :
    st2.globalVolumeFraction = st.globalVolumeFraction := by
  rcases hp : s.props key with _ | pv <;> simp only [processKey, hp] at h
  · cases h; rfl
  · by_cases hk : key = segmentationKey
    · rw [if_pos hk] at h
      by_cases hc : (decide (st.maxAddedFraction < a) && m) = true
      · rw [if_pos hc] at h; cases h; rfl
      · rw [if_neg hc] at h; cases h; rfl
    · rw [if_neg hk] at h
      cases pv with
      | tensor v => cases h; rfl
      | scalar v => cases h; rfl
      | other t => cases h

theorem processKey_ok_map_fst {s : Structure} {m : Bool} {a : ℚ} {st st2 : VoxelState}
    {key : String} (h : processKey s m a st key = .ok st2) :
    st2.volumes.map Prod.fst = st.volumes.map Prod.fst := by
  rcases hp : s.props key with _ | pv <;> simp only [processKey, hp] at h
  · cases h; rfl
  · by_cases hk : key = segmentationKey
    · rw [if_pos hk] at h
      by_cases hc : (decide (st.maxAddedFraction < a) && m) = true
      · rw [if_pos hc] at h; cases h; exact setVol_map_fst _ _ _
      · rw [if_neg hc] at h; cases h; rfl
    · rw [if_neg hk] at h
      cases pv with
      | tensor v => cases h; exact setVol_map_fst _ _ _
      | scalar v => cases h; exact setVol_map_fst _ _ _
      | other t => cases h

theorem processKey_ok_vol_ne {s : Structure} {m : Bool} {a : ℚ} {st st2 : VoxelState}
    {key : String} (k : String) (hne : key ≠ k)
    (h : processKey s m a st key = .ok st2) :
    lookupVol st2.volumes k = lookupVol st.volumes k := by
  rcases hp : s.props key with _ | pv <;> simp only [processKey, hp] at h
  · cases h; rfl
  · by_cases hk : key = segmentationKey
    · rw [if_pos hk] at h
      by_cases hc : (decide (st.maxAddedFraction < a) && m) = true
      · rw [if_pos hc] at h; cases h; exact lookupVol_setVol_ne _ _ _ _ hne
      · rw [if_neg hc] at h; cases h; rfl
    · rw [if_neg hk] at h
      cases pv with
      | tensor v => cases h; exact lookupVol_setVol_ne _ _ _ _ hne
      | scalar v => cases h; exact lookupVol_setVol_ne _ _ _ _ hne
      | other t => cases h

theorem processKey_ok_max_ne_seg {s : Structure} {m : Bool} {a : ℚ} {st st2 : VoxelState}
    {key : String} (hk : key ≠ segmentationKey)
    (h : processKey s m a st key = .ok st2) :
    st2.maxAddedFraction = st.maxAddedFraction := by
  rcases hp : s.props key with _ | pv <;> simp only [processKey, hp] at h
  · cases h; rfl
  · rw [if_neg hk] at h
    cases pv with
    | tensor v => cases h; rfl
    | scalar v => cases h; rfl
    | other t => cases h

theorem processKey_none {s : Structure} {m : Bool} {a : ℚ} (st : VoxelState)
    {key : String} (hp : s.props key = none) :
    processKey s m a st key = .ok st := by
  unfold processKey
  rw [hp]

theorem processKey_mask_false_ok {s : Structure} {a : ℚ} {st st2 : VoxelState}
    {key : String} (h : processKey s false a st key = .ok st2) : st2 = st := by
  rcases hp : s.props key with _ | pv <;> simp only [processKey, hp] at h
  · cases h; rfl
  · by_cases hk : key = segmentationKey
    · rw [if_pos hk] at h
      simp only [Bool.and_false, Bool.false_eq_true, if_false] at h
      cases h; rfl
    · rw [if_neg hk] at h
      cases pv with
      | tensor v =>
        cases h
        simp only [if_neg (Bool.false_ne_true), setVol_lookupVol_self]
      | scalar v =>
        cases h
        simp only [if_neg (Bool.false_ne_true), setVol_lookupVol_self]
      | other t => cases h

/-! ### Key-loop lemmas -/

theorem processKeys_ok_global {s : Structure} {m : Bool} {a : ℚ} :
    ∀ (keys : List String) (st st2 : VoxelState),
    processKeys s m a st keys = .ok st2 →
    st2.globalVolumeFraction = st.globalVolumeFraction := by
  intro keys
  induction keys with
  | nil =>
    intro st st2 h
    simp only [processKeys] at h
    cases h; rfl
  | cons key rest ih =>
    intro st st2 h
    simp only [processKeys] at h
    rcases hk : processKey s m a st key with e | st1
    · simp only [hk] at h
      exact Except.noConfusion h
    · simp only [hk] at h
      exact (ih st1 st2 h).trans (processKey_ok_global hk)

theorem processKeys_ok_map_fst {s : Structure} {m : Bool} {a : ℚ} :
    ∀ (keys : List String) (st st2 : VoxelState),
    processKeys s m a st keys = .ok st2 →
    st2.volumes.map Prod.fst = st.volumes.map Prod.fst := by
  intro keys
  induction keys with
  | nil =>
    intro st st2 h
    simp only [processKeys] at h
    cases h; rfl
  | cons key rest ih =>
    intro st st2 h
    simp only [processKeys] at h
    rcases hk : processKey s m a st key with e | st1
    · simp only [hk] at h
      exact Except.noConfusion h
    · simp only [hk] at h
      exact (ih st1 st2 h).trans (processKey_ok_map_fst hk)

theorem processKeys_ok_vol_none {s : Structure} {m : Bool} {a : ℚ} {k : String}
    (hp : s.props k = none) :
    ∀ (keys : List String) (st st2 : VoxelState),
    processKeys s m a st keys = .ok st2 →
    lookupVol st2.volumes k = lookupVol st.volumes k := by
  intro keys
  induction keys with
  | nil =>
    intro st st2 h
    simp only [processKeys] at h
    cases h; rfl
  | cons key rest ih =>
    intro st st2 h
    simp only [processKeys] at h
    rcases hk : processKey s m a st key with e | st1
    · simp only [hk] at h
      exact Except.noConfusion h
    · simp only [hk] at h
      by_cases hkey : key = k
      · subst hkey
        rw [processKey_none st hp] at hk
        cases hk
        exact ih _ _ h
      · exact (ih st1 st2 h).trans (processKey_ok_vol_ne k hkey hk)

theorem processKeys_mask_false_ok {s : Structure} {a : ℚ} :
    ∀ (keys : List String) (st st2 : VoxelState),
    processKeys s false a st keys = .ok st2 → st2 = st := by
  intro keys
  induction keys with
  | nil =>
    intro st st2 h
    simp only [processKeys] at h
    cases h; rfl
  | cons key rest ih =>
    intro st st2 h
    simp only [processKeys] at h
    rcases hk : processKey s false a st key with e | st1
    · simp only [hk] at h
      exact Except.noConfusion h
    · simp only [hk] at h
      rw [processKey_mask_false_ok hk] at h
      exact ih st st2 h

/-! ### Structure-step characterization -/

theorem activeMask_eq_true {st : VoxelState} {s : Structure} :
    activeMask st s = true ↔ (0 < s.occupancy ∧ st.globalVolumeFraction < 1) := by
  simp [activeMask]

theorem addedVolumeFraction_true_eq {g occ : ℚ} :
    addedVolumeFraction g occ true = if g + occ ≤ 1 then occ else min (1 - g) occ := by
  have hth : addedVolumeFraction g occ true =
      if 1 < (if g + occ ≤ 1 then occ else g + occ) then min (1 - g) occ
      else (if g + occ ≤ 1 then occ else g + occ) := rfl
  rw [hth]
  rcases le_or_lt (g + occ) 1 with hc | hc
  · simp only [if_pos hc]
    rcases le_or_lt occ 1 with h3 | h3
    · rw [if_neg (not_lt.mpr h3)]
    · rw [if_pos h3]
      exact min_eq_right (by linarith)
  · simp only [if_neg (not_le.mpr hc)]
    rw [if_pos (show (1:ℚ) < g + occ from hc)]

theorem processStructure_ok_elim {st st2 : VoxelState} {s : Structure}
    (h : processStructure st s = .ok st2) :
    ∃ st1,
      processKeys s (activeMask st s)
        (addedVolumeFraction st.globalVolumeFraction s.occupancy (activeMask st s))
        st (st.volumes.map Prod.fst) = .ok st1 ∧
      st2 = { st1 with
              globalVolumeFraction := st1.globalVolumeFraction +
                (if activeMask st s then
                  addedVolumeFraction st.globalVolumeFraction s.occupancy (activeMask st s)
                 else 0) } := by
  simp only [processStructure] at h
  rcases hk : processKeys s (activeMask st s)
      (addedVolumeFraction st.globalVolumeFraction s.occupancy (activeMask st s))
      st (st.volumes.map Prod.fst) with e | st1
  · simp only [hk] at h
    exact Except.noConfusion h
  · simp only [hk] at h
    exact ⟨st1, rfl, (Except.ok.injEq _ _).mp h.symm⟩

theorem processStructure_ok_global {st st2 : VoxelState} {s : Structure}
    (h : processStructure st s = .ok st2) :
    st2.globalVolumeFraction =
      st.globalVolumeFraction + newlyClaimedFraction st.globalVolumeFraction s := by
  obtain ⟨st1, hk, rfl⟩ := processStructure_ok_elim h
  dsimp only
  rw [processKeys_ok_global _ _ _ hk]
  congr 1
  by_cases hm : activeMask st s = true
  · rw [if_pos hm, hm]
    obtain ⟨h1, h2⟩ := activeMask_eq_true.mp hm
    rw [addedVolumeFraction_true_eq]
    simp only [newlyClaimedFraction]
    rw [if_pos (And.intro h1 h2)]
  · rw [if_neg hm]
    simp only [newlyClaimedFraction]
    rw [if_neg (fun hc => hm (activeMask_eq_true.mpr hc))]

theorem processStructure_inactive_ok {st st2 : VoxelState} {s : Structure}
    (hm : activeMask st s = false) (h : processStructure st s = .ok st2) :
    st2 = st := by
  obtain ⟨st1, hk, heq⟩ := processStructure_ok_elim h
  rw [hm] at hk
  have h1 : st1 = st := processKeys_mask_false_ok _ _ _ hk
  subst h1
  rw [heq, hm]
  simp

theorem processStructure_ok_bounds {st st2 : VoxelState} {s : Structure}
    (h0 : 0 ≤ st.globalVolumeFraction) (h1 : st.globalVolumeFraction ≤ 1)
    (h : processStructure st s = .ok st2) :
    0 ≤ st2.globalVolumeFraction ∧ st2.globalVolumeFraction ≤ 1 := by
  rw [processStructure_ok_global h]
  simp only [newlyClaimedFraction]
  by_cases hm : 0 < s.occupancy ∧ st.globalVolumeFraction < 1
  · rw [if_pos hm]
    obtain ⟨ho, hl⟩ := hm
    by_cases hc : st.globalVolumeFraction + s.occupancy ≤ 1
    · rw [if_pos hc]
      constructor <;> linarith
    · rw [if_neg hc]
      have hmin1 : min (1 - st.globalVolumeFraction) s.occupancy ≤
          1 - st.globalVolumeFraction := min_le_left _ _
      have hmin0 : 0 ≤ min (1 - st.globalVolumeFraction) s.occupancy :=
        le_min (by linarith) ho.le
      constructor <;> linarith
  · rw [if_neg hm, add_zero]
    exact ⟨h0, h1⟩

theorem runStructures_ok_bounds :
    ∀ (L : List Structure) (st st2 : VoxelState),
    0 ≤ st.globalVolumeFraction → st.globalVolumeFraction ≤ 1 →
    runStructures st L = .ok st2 →
    0 ≤ st2.globalVolumeFraction ∧ st2.globalVolumeFraction ≤ 1 := by
  intro L
  induction L with
  | nil =>
    intro st st2 h0 h1 h
    simp only [runStructures] at h
    cases h
    exact ⟨h0, h1⟩
  | cons s rest ih =>
    intro st st2 h0 h1 h
    simp only [runStructures] at h
    rcases hs : processStructure st s with e | st1
    · simp only [hs] at h
      exact Except.noConfusion h
    · simp only [hs] at h
      obtain ⟨g0, g1⟩ := processStructure_ok_bounds h0 h1 hs
      exact ih st1 st2 g0 g1 h

theorem runStructures_ok_map_fst :
    ∀ (L : List Structure) (st st2 : VoxelState),
    runStructures st L = .ok st2 →
    st2.volumes.map Prod.fst = st.volumes.map Prod.fst := by
  intro L
  induction L with
  | nil =>
    intro st st2 h
    simp only [runStructures] at h
    cases h; rfl
  | cons s rest ih =>
    intro st st2 h
    simp only [runStructures] at h
    rcases hs : processStructure st s with e | st1
    · simp only [hs] at h
      exact Except.noConfusion h
    · simp only [hs] at h
      obtain ⟨stk, hk, heq⟩ := processStructure_ok_elim hs
      have h1 : st1.volumes.map Prod.fst = st.volumes.map Prod.fst := by
        rw [heq]
        dsimp only
        exact processKeys_ok_map_fst _ _ _ hk
      exact (ih st1 st2 h).trans h1

theorem volumeFractionsCheckTriggers_eq_false (g : ℚ) :
    volumeFractionsCheckTriggers g = false := by
  simp only [volumeFractionsCheckTriggers]
  rcases le_or_lt g 1 with hg | hg
  · rw [decide_eq_false (not_lt.mpr hg), Bool.false_and]
  · have habs : ¬(|g| < 1 / 100000) := by
      rw [abs_of_pos (by linarith : (0:ℚ) < g)]
      push_neg
      linarith
    rw [decide_eq_false habs, Bool.and_false]

theorem createSimulationVolume_ok_of_run {keys : List String} {L : List Structure}
    {st : VoxelState} (h : runStructures (initState keys) L = .ok st) :
    createSimulationVolume keys L = .ok (materializeOutputs st) := by
  simp only [createSimulationVolume, h, volumeFractionsCheckTriggers_eq_false,
    Bool.false_eq_true, if_false]

/-! ### Claim theorems -/

/-- C1.  The claim states that `create_simulation_volume` raises the
`AssertionError` whenever a voxel's final cumulative occupancy exceeds
`1 + 1e-5`, and does not raise it otherwise.  On the code this is false in
its first half: the check at line 109 selects the entries with
`global_volume_fractions > 1` and fires only when such an entry also has
`abs(value) < 1e-5`, a condition no value greater than `1` can meet, so the
check can never fire — in particular not at a cumulative occupancy of
`3/2`, which exceeds `1 + 1e-5` and which the claim says must raise. -/
theorem consistency_check_never_fires :
    (∀ g : ℚ, volumeFractionsCheckTriggers g = false) ∧
    ((1 + 1 / 100000 : ℚ) < 3 / 2 ∧ volumeFractionsCheckTriggers (3 / 2) = false) :=
  ⟨volumeFractionsCheckTriggers_eq_false,
   by norm_num, volumeFractionsCheckTriggers_eq_false _⟩

/-- C2.  At an active voxel (structure occupancy positive, cumulative
occupancy below 1), the fraction newly added to the cumulative occupancy by
one structure step equals the structure's occupancy when the candidate
total stays at most 1, and equals `min(1 - cumulative, occupancy)` when the
candidate total exceeds 1. -/
theorem newly_claimed_fraction_formula {st st2 : VoxelState} {s : Structure}
    (h1 : 0 < s.occupancy) (h2 : st.globalVolumeFraction < 1)
    (h : processStructure st s = .ok st2) :
    (st.globalVolumeFraction + s.occupancy ≤ 1 →
      st2.globalVolumeFraction = st.globalVolumeFraction + s.occupancy) ∧
    (1 < st.globalVolumeFraction + s.occupancy →
      st2.globalVolumeFraction = st.globalVolumeFraction +
        min (1 - st.globalVolumeFraction) s.occupancy) := by
  have hg := processStructure_ok_global h
  simp only [newlyClaimedFraction, if_pos (And.intro h1 h2)] at hg
  constructor
  · intro hc
    rw [hg, if_pos hc]
  · intro hc
    rw [hg, if_neg (not_le.mpr hc)]

/-- C5.  Starting from the zero-initialized state, the cumulative occupancy
at the modelled voxel lies in `[0, 1]` after each processed structure (here
exactly, the numerical tolerance being zero in exact arithmetic), the bound
being enforced by the clamping step. -/
theorem cumulative_occupancy_invariant (keys : List String) (L : List Structure)
    (hL : ∀ s ∈ L, 0 ≤ s.occupancy ∧ s.occupancy ≤ 1)
    (n : ℕ) (st2 : VoxelState)
    (h : runStructures (initState keys) (L.take n) = .ok st2) :
    0 ≤ st2.globalVolumeFraction ∧ st2.globalVolumeFraction ≤ 1 :=
  runStructures_ok_bounds (L.take n) (initState keys) st2 le_rfl zero_le_one h

/-- C6.  A voxel whose cumulative occupancy has reached 1 is permanently
closed: a later structure step that completes leaves the whole per-voxel
state (every output field, the segmentation field, the cumulative occupancy
and the maximum applied fraction) unchanged, whatever the structure. -/
theorem fully_claimed_voxel_closed {st st2 : VoxelState} {s : Structure}
    (hfull : st.globalVolumeFraction = 1)
    (h : processStructure st s = .ok st2) : st2 = st :=
  processStructure_inactive_ok
    (by simp [activeMask, hfull]) h

/-- C7.  A structure whose property lookup returns `None` for a key leaves
the output field for that key unchanged at the modelled voxel, including
when the structure claims the voxel: absence is a skip, not a zero-valued
contribution. -/
theorem absent_property_untouched {st st2 : VoxelState} {s : Structure} {k : String}
    (hp : s.props k = none) (h : processStructure st s = .ok st2) :
    lookupVol st2.volumes k = lookupVol st.volumes k := by
  obtain ⟨st1, hk, heq⟩ := processStructure_ok_elim h
  rw [heq]
  dsimp only
  exact processKeys_ok_vol_none hp _ _ _ hk

/-- C9.  The composition is deterministic: two invocations with identical
global settings (including the random seed), identical component settings,
identical tracked keys, and identical structure sequences (occupancy fields
and property lookups included) produce identical results, errors included. -/
theorem composition_deterministic (gs1 gs2 : GlobalSettings)
    (cs1 cs2 : ComponentSettings) (keys1 keys2 : List String)
    (L1 L2 : List Structure)
    (hgs : gs1 = gs2) (hcs : cs1 = cs2) (hkeys : keys1 = keys2) (hL : L1 = L2) :
    createSimulationVolumeFull gs1 cs1 keys1 L1 =
      createSimulationVolumeFull gs2 cs2 keys2 L2 := by
  subst hgs
  subst hcs
  subst hkeys
  subst hL
  rfl

theorem map_fst_createEmptyVolumes :
    ∀ keys : List String, (createEmptyVolumes keys).map Prod.fst = keys := by
  intro keys
  induction keys with
  | nil => rfl
  | cons a as ih => simpa [createEmptyVolumes] using ih

theorem processStructure_zero_occupancy_ok {st st2 : VoxelState} {s : Structure}
    (h0 : s.occupancy = 0) (h : processStructure st s = .ok st2) : st2 = st :=
  processStructure_inactive_ok (by simp [activeMask, h0]) h

theorem runStructures_all_zero_ok :
    ∀ (L : List Structure) (st st2 : VoxelState),
    (∀ s ∈ L, s.occupancy = 0) → runStructures st L = .ok st2 → st2 = st := by
  intro L
  induction L with
  | nil =>
    intro st st2 _ h
    simp only [runStructures] at h
    cases h; rfl
  | cons s rest ih =>
    intro st st2 h0 h
    simp only [runStructures] at h
    rcases hs : processStructure st s with e | st1
    · simp only [hs] at h
      exact Except.noConfusion h
    · simp only [hs] at h
      have h1 : st1 = st :=
        processStructure_zero_occupancy_ok (h0 s (List.mem_cons_self s rest)) hs
      rw [ih st1 st2 (fun x hx => h0 x (List.mem_cons_of_mem s hx)) h, h1]

/-- C10.  At a voxel where every structure in the sequence has occupancy
fraction 0, nothing is ever written: if the run completes, the final
per-voxel state is exactly the zero-initialized allocation (all property
fields, the segmentation field, the cumulative occupancy and the maximum
applied fraction), and the returned result materializes that state. -/
theorem untouched_voxel_remains_zero (keys : List String) (L : List Structure)
    (h0 : ∀ s ∈ L, s.occupancy = 0) (st2 : VoxelState)
    (h : runStructures (initState keys) L = .ok st2) :
    st2 = initState keys ∧
    createSimulationVolume keys L = .ok (materializeOutputs (initState keys)) := by
  have hst : st2 = initState keys := runStructures_all_zero_ok L _ _ h0 h
  refine ⟨hst, ?_⟩
  rw [← hst]
  exact createSimulationVolume_ok_of_run h

/-- C8.  When the structure loop completes, `create_simulation_volume`
returns the materialized volumes: one entry per tracked property key, the
values being exactly the internally accumulated per-voxel values (float32
to float64 widening is exact), marked as double precision and resident in
host memory. -/
theorem outputs_materialized_faithfully (keys : List String) (L : List Structure)
    (st : VoxelState) (h : runStructures (initState keys) L = .ok st) :
    createSimulationVolume keys L = .ok (materializeOutputs st) ∧
    (materializeOutputs st).values = st.volumes ∧
    (materializeOutputs st).dtypeIsFloat64 = true ∧
    (materializeOutputs st).onHost = true ∧
    (materializeOutputs st).values.map Prod.fst = keys := by
  refine ⟨createSimulationVolume_ok_of_run h, rfl, rfl, rfl, ?_⟩
  have h1 := runStructures_ok_map_fst L _ _ h
  have h2 : ((initState keys).volumes).map Prod.fst = keys :=
    map_fst_createEmptyVolumes keys
  exact h1.trans h2

/-! ### Unsupported-property-type lemmas -/

theorem processKey_other_error {s : Structure} {m : Bool} {a : ℚ}
    (st : VoxelState) {key t : String} (hne : key ≠ segmentationKey)
    (hp : s.props key = some (.other t)) :
    processKey s m a st key = .error (unsupportedPropertyMessage t) := by
  simp only [processKey, hp, if_neg hne]

theorem processKey_error_msg {s : Structure} {m : Bool} {a : ℚ}
    {st : VoxelState} {key e : String}
    (h : processKey s m a st key = .error e) :
    ∃ t, e = unsupportedPropertyMessage t := by
  rcases hp : s.props key with _ | pv <;> simp only [processKey, hp] at h
  · exact Except.noConfusion h
  · by_cases hk : key = segmentationKey
    · rw [if_pos hk] at h
      by_cases hc : (decide (st.maxAddedFraction < a) && m) = true
      · rw [if_pos hc] at h; exact Except.noConfusion h
      · rw [if_neg hc] at h; exact Except.noConfusion h
    · rw [if_neg hk] at h
      cases pv with
      | tensor v => exact Except.noConfusion h
      | scalar v => exact Except.noConfusion h
      | other t =>
        refine ⟨t, ?_⟩
        have := (Except.error.injEq _ _).mp h
        exact this.symm

theorem processKeys_error_of_bad_key {s : Structure} {m : Bool} {a : ℚ} :
    ∀ (keys : List String) (st : VoxelState),
    (∃ key t, key ∈ keys ∧ key ≠ segmentationKey ∧ s.props key = some (.other t)) →
    ∃ t2, processKeys s m a st keys = .error (unsupportedPropertyMessage t2) := by
  intro keys
  induction keys with
  | nil =>
    intro st h
    obtain ⟨key, t, hk, _, _⟩ := h
    exact absurd hk (List.not_mem_nil key)
  | cons key rest ih =>
    intro st h
    obtain ⟨k, t, hk, hne, hp⟩ := h
    rcases hq : processKey s m a st key with e | st1
    · obtain ⟨t2, ht2⟩ := processKey_error_msg hq
      refine ⟨t2, ?_⟩
      simp only [processKeys, hq, ht2]
    · rcases List.mem_cons.mp hk with hkey | hkey
      · subst hkey
        rw [processKey_other_error st hne hp] at hq
        exact Except.noConfusion hq
      · obtain ⟨t2, ht2⟩ := ih st1 ⟨k, t, hkey, hne, hp⟩
        refine ⟨t2, ?_⟩
        simp only [processKeys, hq, ht2]

theorem charsStartWith_append (xs ys : List Char) :
    charsStartWith xs (xs ++ ys) = true := by
  induction xs with
  | nil => rfl
  | cons a as ih => simp [charsStartWith, ih]

theorem charsContain_nil_needle (hay : List Char) :
    charsContain [] hay = true := by
  cases hay with
  | nil => rfl
  | cons b bs => simp [charsContain, charsStartWith]

theorem charsContain_of_startWith {xs hay : List Char}
    (h : charsStartWith xs hay = true) : charsContain xs hay = true := by
  cases hay with
  | nil =>
    cases xs with
    | nil => rfl
    | cons a as => exact Bool.noConfusion h
  | cons b bs => simp [charsContain, h]

theorem charsContain_cons {xs bs : List Char} (b : Char)
    (h : charsContain xs bs = true) : charsContain xs (b :: bs) = true := by
  simp [charsContain, h]

theorem charsContain_append (pre xs post : List Char) :
    charsContain xs (pre ++ xs ++ post) = true := by
  induction pre with
  | nil =>
    simp only [List.nil_append]
    exact charsContain_of_startWith (charsStartWith_append xs post)
  | cons p ps ih =>
    simp only [List.cons_append]
    exact charsContain_cons p ih

theorem strContains_unsupportedPropertyMessage (t : String) :
    strContains (unsupportedPropertyMessage t) t = true := by
  have hdata : (unsupportedPropertyMessage t).toList =
      "Unsupported type of structure property. Was ".toList ++ t.toList ++
        ".".toList := by
    simp only [unsupportedPropertyMessage, String.toList, String.data_append]
  simp only [strContains, hdata]
  exact charsContain_append _ _ _

/-- C3 (amended).  A structure carrying, for some non-segmentation key of
the volumes dict, a property value that is neither a per-voxel tensor nor a
scalar aborts the structure step immediately with the `ValueError` of lines
104-105; the raised message identifies the actual type encountered, but not
the offending property key (which the counterexample shows is absent from
the message). -/
theorem unsupported_property_type_aborts {st : VoxelState} {s : Structure}
    {key t : String} (hin : key ∈ st.volumes.map Prod.fst)
    (hne : key ≠ segmentationKey) (hp : s.props key = some (.other t)) :
    ∃ t2, processStructure st s = .error (unsupportedPropertyMessage t2) ∧
      strContains (unsupportedPropertyMessage t2) t2 = true := by
  obtain ⟨t2, he⟩ :=
    processKeys_error_of_bad_key (s := s) (m := activeMask st s)
      (a := addedVolumeFraction st.globalVolumeFraction s.occupancy (activeMask st s))
      (st.volumes.map Prod.fst) st ⟨key, t, hin, hne, hp⟩
  refine ⟨t2, ?_, strContains_unsupportedPropertyMessage t2⟩
  simp only [processStructure, he]

/-! ### Segmentation-ownership lemmas -/

theorem newlyClaimedFraction_nonneg (g : ℚ) (s : Structure) :
    0 ≤ newlyClaimedFraction g s := by
  unfold newlyClaimedFraction
  by_cases hm : 0 < s.occupancy ∧ g < 1
  · rw [if_pos hm]
    by_cases hc : g + s.occupancy ≤ 1
    · rw [if_pos hc]
      exact hm.1.le
    · rw [if_neg hc]
      exact le_min (by linarith [hm.2]) hm.1.le
  · rw [if_neg hm]

theorem newlyClaimedFraction_inactive {g : ℚ} {s : Structure}
    (hm : ¬(0 < s.occupancy ∧ g < 1)) : newlyClaimedFraction g s = 0 := by
  unfold newlyClaimedFraction
  rw [if_neg hm]

theorem length_claimedFractions (g : ℚ) :
    ∀ L : List Structure, (claimedFractions g L).length = L.length := by
  intro L
  induction L generalizing g with
  | nil => rfl
  | cons s rest ih => simp [claimedFractions, ih]

theorem added_eq_newly_of_active {st : VoxelState} {s : Structure}
    (hm : activeMask st s = true) :
    addedVolumeFraction st.globalVolumeFraction s.occupancy true =
      newlyClaimedFraction st.globalVolumeFraction s := by
  obtain ⟨h1, h2⟩ := activeMask_eq_true.mp hm
  rw [addedVolumeFraction_true_eq]
  simp only [newlyClaimedFraction]
  rw [if_pos (And.intro h1 h2)]

theorem processKeys_ok_no_seg {s : Structure} {m : Bool} {a : ℚ} :
    ∀ (keys : List String) (st st2 : VoxelState),
    processKeys s m a st keys = .ok st2 → segmentationKey ∉ keys →
    lookupVol st2.volumes segmentationKey = lookupVol st.volumes segmentationKey ∧
    st2.maxAddedFraction = st.maxAddedFraction := by
  intro keys
  induction keys with
  | nil =>
    intro st st2 h _
    simp only [processKeys] at h
    cases h
    exact ⟨rfl, rfl⟩
  | cons key rest ih =>
    intro st st2 h hnot
    have hkey : key ≠ segmentationKey := fun hk => hnot (hk ▸ List.mem_cons_self key rest)
    have hrest : segmentationKey ∉ rest := fun hr => hnot (List.mem_cons_of_mem key hr)
    simp only [processKeys] at h
    rcases hq : processKey s m a st key with e | st1
    · simp only [hq] at h
      exact Except.noConfusion h
    · simp only [hq] at h
      obtain ⟨e1, e2⟩ := ih st1 st2 h hrest
      refine ⟨e1.trans ?_, e2.trans ?_⟩
      · exact processKey_ok_vol_ne segmentationKey hkey hq
      · exact processKey_ok_max_ne_seg hkey hq

theorem processKeys_ok_max_of_seg_none {s : Structure} {m : Bool} {a : ℚ}
    (hseg : s.props segmentationKey = none) :
    ∀ (keys : List String) (st st2 : VoxelState),
    processKeys s m a st keys = .ok st2 →
    st2.maxAddedFraction = st.maxAddedFraction := by
  intro keys
  induction keys with
  | nil =>
    intro st st2 h
    simp only [processKeys] at h
    cases h; rfl
  | cons key rest ih =>
    intro st st2 h
    simp only [processKeys] at h
    rcases hq : processKey s m a st key with e | st1
    · simp only [hq] at h
      exact Except.noConfusion h
    · simp only [hq] at h
      refine (ih st1 st2 h).trans ?_
      by_cases hkey : key = segmentationKey
      · subst hkey
        rw [processKey_none st hseg] at hq
        cases hq; rfl
      · exact processKey_ok_max_ne_seg hkey hq

theorem processKeys_seg_max {s : Structure} {m : Bool} {a : ℚ} {pv : PropValue}
    (hseg : s.props segmentationKey = some pv) :
    ∀ (keys : List String) (st st2 : VoxelState),
    processKeys s m a st keys = .ok st2 →
    segmentationKey ∈ keys →
    segmentationKey ∈ st.volumes.map Prod.fst →
    (((decide (st.maxAddedFraction < a) && m) = true →
        lookupVol st2.volumes segmentationKey = pv.val ∧ st2.maxAddedFraction = a) ∧
     ((decide (st.maxAddedFraction < a) && m) = false →
        lookupVol st2.volumes segmentationKey = lookupVol st.volumes segmentationKey ∧
        st2.maxAddedFraction = st.maxAddedFraction)) := by
  intro keys
  induction keys with
  | nil =>
    intro st st2 _ hmem _
    exact absurd hmem (List.not_mem_nil segmentationKey)
  | cons key rest ih =>
    intro st st2 h hmem hkin
    simp only [processKeys] at h
    rcases hq : processKey s m a st key with e | st1
    · simp only [hq] at h
      exact Except.noConfusion h
    · simp only [hq] at h
      by_cases hkey : key = segmentationKey
      · subst hkey
        simp only [processKey, hseg, if_pos rfl] at hq
        by_cases hc : (decide (st.maxAddedFraction < a) && m) = true
        · rw [if_pos hc] at hq
          have hst1 : st1 = { st with
              volumes := setVol st.volumes segmentationKey pv.val
              maxAddedFraction := a } := ((Except.ok.injEq _ _).mp hq).symm
          have hmax1 : st1.maxAddedFraction = a := by rw [hst1]
          have hseg1 : lookupVol st1.volumes segmentationKey = pv.val := by
            rw [hst1]
            exact lookupVol_setVol_self _ _ _ hkin
          have hrest : lookupVol st2.volumes segmentationKey =
              lookupVol st1.volumes segmentationKey ∧
              st2.maxAddedFraction = st1.maxAddedFraction := by
            by_cases hmem2 : segmentationKey ∈ rest
            · have hkin1 : segmentationKey ∈ st1.volumes.map Prod.fst := by
                rw [hst1]
                simpa [setVol_map_fst] using hkin
              have hcond : (decide (st1.maxAddedFraction < a) && m) = false := by
                rw [hmax1, decide_eq_false (lt_irrefl a), Bool.false_and]
              exact (ih st1 st2 h hmem2 hkin1).2 hcond
            · exact processKeys_ok_no_seg rest st1 st2 h hmem2
          constructor
          · intro _
            exact ⟨hrest.1.trans hseg1, hrest.2.trans hmax1⟩
          · intro hcfalse
            rw [hc] at hcfalse
            exact Bool.noConfusion hcfalse
        · rw [if_neg hc] at hq
          have hst1 : st1 = st := ((Except.ok.injEq _ _).mp hq).symm
          subst hst1
          by_cases hmem2 : segmentationKey ∈ rest
          · exact ih st1 st2 h hmem2 hkin
          · have hrest := processKeys_ok_no_seg rest st1 st2 h hmem2
            constructor
            · intro hctrue
              exact absurd hctrue hc
            · intro _
              exact hrest
      · have hmem2 : segmentationKey ∈ rest := by
          rcases List.mem_cons.mp hmem with hx | hx
          · exact absurd hx.symm hkey
          · exact hx
        have hmax1 : st1.maxAddedFraction = st.maxAddedFraction :=
          processKey_ok_max_ne_seg hkey hq
        have hseg1 : lookupVol st1.volumes segmentationKey =
            lookupVol st.volumes segmentationKey :=
          processKey_ok_vol_ne segmentationKey hkey hq
        have hkin1 : segmentationKey ∈ st1.volumes.map Prod.fst := by
          rw [processKey_ok_map_fst hq]
          exact hkin
        have hres := ih st1 st2 h hmem2 hkin1
        rw [hmax1] at hres
        constructor
        · intro hctrue
          exact hres.1 hctrue
        · intro hcfalse
          obtain ⟨e1, e2⟩ := hres.2 hcfalse
          exact ⟨e1.trans hseg1, e2⟩

theorem processStructure_ok_map_fst {st st2 : VoxelState} {s : Structure}
    (h : processStructure st s = .ok st2) :
    st2.volumes.map Prod.fst = st.volumes.map Prod.fst := by
  obtain ⟨st1, hk, heq⟩ := processStructure_ok_elim h
  rw [heq]
  dsimp only
  exact processKeys_ok_map_fst _ _ _ hk

theorem processStructure_seg_step {st st2 : VoxelState} {s : Structure} {pv : PropValue}
    (hseg : s.props segmentationKey = some pv)
    (hkin : segmentationKey ∈ st.volumes.map Prod.fst)
    (h : processStructure st s = .ok st2) :
    ((activeMask st s = true ∧
        st.maxAddedFraction < newlyClaimedFraction st.globalVolumeFraction s) →
      lookupVol st2.volumes segmentationKey = pv.val ∧
      st2.maxAddedFraction = newlyClaimedFraction st.globalVolumeFraction s) ∧
    (¬(activeMask st s = true ∧
        st.maxAddedFraction < newlyClaimedFraction st.globalVolumeFraction s) →
      lookupVol st2.volumes segmentationKey = lookupVol st.volumes segmentationKey ∧
      st2.maxAddedFraction = st.maxAddedFraction) := by
  obtain ⟨st1, hk, heq⟩ := processStructure_ok_elim h
  have hs2seg : lookupVol st2.volumes segmentationKey =
      lookupVol st1.volumes segmentationKey := by rw [heq]
  have hs2max : st2.maxAddedFraction = st1.maxAddedFraction := by rw [heq]
  have hres := processKeys_seg_max hseg _ st st1 hk hkin hkin
  by_cases hm : activeMask st s = true
  · have haeq : addedVolumeFraction st.globalVolumeFraction s.occupancy (activeMask st s) =
        newlyClaimedFraction st.globalVolumeFraction s := by
      rw [hm]
      exact added_eq_newly_of_active hm
    constructor
    · intro hcase
      obtain ⟨_, hlt⟩ := hcase
      have hcond : (decide (st.maxAddedFraction <
          addedVolumeFraction st.globalVolumeFraction s.occupancy (activeMask st s)) &&
          activeMask st s) = true := by
        rw [haeq, hm, Bool.and_true]
        exact decide_eq_true hlt
      obtain ⟨e1, e2⟩ := hres.1 hcond
      exact ⟨hs2seg.trans e1, (hs2max.trans e2).trans haeq⟩
    · intro hnot
      have hlt : ¬ st.maxAddedFraction < newlyClaimedFraction st.globalVolumeFraction s :=
        fun hl => hnot ⟨hm, hl⟩
      have hcond : (decide (st.maxAddedFraction <
          addedVolumeFraction st.globalVolumeFraction s.occupancy (activeMask st s)) &&
          activeMask st s) = false := by
        rw [haeq, decide_eq_false hlt, Bool.false_and]
      obtain ⟨e1, e2⟩ := hres.2 hcond
      exact ⟨hs2seg.trans e1, hs2max.trans e2⟩
  · have hmf : activeMask st s = false := by
      revert hm
      cases activeMask st s <;> simp
    have hcond : (decide (st.maxAddedFraction <
        addedVolumeFraction st.globalVolumeFraction s.occupancy (activeMask st s)) &&
        activeMask st s) = false := by
      rw [hmf, Bool.and_false]
    constructor
    · intro hcase
      obtain ⟨hma, _⟩ := hcase
      rw [hmf] at hma
      exact Bool.noConfusion hma
    · intro _
      obtain ⟨e1, e2⟩ := hres.2 hcond
      exact ⟨hs2seg.trans e1, hs2max.trans e2⟩

theorem processStructure_seg_none {st st2 : VoxelState} {s : Structure}
    (hseg : s.props segmentationKey = none) (h : processStructure st s = .ok st2) :
    lookupVol st2.volumes segmentationKey = lookupVol st.volumes segmentationKey ∧
    st2.maxAddedFraction = st.maxAddedFraction := by
  obtain ⟨st1, hk, heq⟩ := processStructure_ok_elim h
  constructor
  · rw [heq]
    dsimp only
    exact processKeys_ok_vol_none hseg _ _ _ hk
  · rw [heq]
    dsimp only
    exact processKeys_ok_max_of_seg_none hseg _ _ _ hk

theorem processStructure_max_cases {st st2 : VoxelState} {s : Structure}
    (h : processStructure st s = .ok st2) :
    st2.maxAddedFraction = st.maxAddedFraction ∨
    st2.maxAddedFraction = newlyClaimedFraction st.globalVolumeFraction s := by
  rcases hseg : s.props segmentationKey with _ | pv
  · exact Or.inl (processStructure_seg_none hseg h).2
  · by_cases hkin : segmentationKey ∈ st.volumes.map Prod.fst
    · have hres := processStructure_seg_step hseg hkin h
      by_cases hcase : activeMask st s = true ∧
          st.maxAddedFraction < newlyClaimedFraction st.globalVolumeFraction s
      · exact Or.inr (hres.1 hcase).2
      · exact Or.inl (hres.2 hcase).2
    · obtain ⟨st1, hk, heq⟩ := processStructure_ok_elim h
      left
      rw [heq]
      dsimp only
      exact (processKeys_ok_no_seg _ _ _ hk hkin).2

theorem runStructures_seg_no_beat :
    ∀ (L : List Structure) (st st2 : VoxelState),
    runStructures st L = .ok st2 →
    segmentationKey ∈ st.volumes.map Prod.fst →
    (∀ j, j < L.length →
      (claimedFractions st.globalVolumeFraction L).getD j 0 ≤ st.maxAddedFraction) →
    lookupVol st2.volumes segmentationKey = lookupVol st.volumes segmentationKey ∧
    st2.maxAddedFraction = st.maxAddedFraction := by
  intro L
  induction L with
  | nil =>
    intro st st2 h _ _
    simp only [runStructures] at h
    cases h
    exact ⟨rfl, rfl⟩
  | cons s rest ih =>
    intro st st2 h hkin hall
    simp only [runStructures] at h
    rcases hs : processStructure st s with e | st1
    · simp only [hs] at h
      exact Except.noConfusion h
    · simp only [hs] at h
      have hc0 : newlyClaimedFraction st.globalVolumeFraction s ≤ st.maxAddedFraction := by
        have hx := hall 0 (by simp only [List.length_cons]; omega)
        simpa [claimedFractions, List.getD_cons_zero] using hx
      have hstep : lookupVol st1.volumes segmentationKey =
          lookupVol st.volumes segmentationKey ∧
          st1.maxAddedFraction = st.maxAddedFraction := by
        rcases hseg : s.props segmentationKey with _ | pv
        · exact processStructure_seg_none hseg hs
        · refine (processStructure_seg_step hseg hkin hs).2 ?_
          rintro ⟨_, hlt⟩
          exact absurd hc0 (not_le.mpr hlt)
      have hkin1 : segmentationKey ∈ st1.volumes.map Prod.fst := by
        rw [processStructure_ok_map_fst hs]
        exact hkin
      have hg1 := processStructure_ok_global hs
      have hall1 : ∀ j, j < rest.length →
          (claimedFractions st1.globalVolumeFraction rest).getD j 0 ≤
            st1.maxAddedFraction := by
        intro j hj
        rw [hstep.2, hg1]
        have hx := hall (j+1) (by simp only [List.length_cons]; omega)
        simpa [claimedFractions, List.getD_cons_succ] using hx
      obtain ⟨e1, e2⟩ := ih st1 st2 h hkin1 hall1
      exact ⟨e1.trans hstep.1, e2.trans hstep.2⟩

theorem runStructures_seg_winner :
    ∀ (L : List Structure) (st st2 : VoxelState) (i : ℕ) (hi : i < L.length),
    runStructures st L = .ok st2 →
    segmentationKey ∈ st.volumes.map Prod.fst →
    0 ≤ st.maxAddedFraction →
    st.maxAddedFraction < (claimedFractions st.globalVolumeFraction L).getD i 0 →
    (∀ j, j < L.length → j ≠ i →
      (claimedFractions st.globalVolumeFraction L).getD j 0 <
        (claimedFractions st.globalVolumeFraction L).getD i 0) →
    (L.get ⟨i, hi⟩).props segmentationKey ≠ none →
    lookupVol st2.volumes segmentationKey = segLabel (L.get ⟨i, hi⟩) ∧
    st2.maxAddedFraction = (claimedFractions st.globalVolumeFraction L).getD i 0 := by
  intro L
  induction L with
  | nil =>
    intro st st2 i hi
    exact absurd hi (Nat.not_lt_zero i)
  | cons s rest ih =>
    intro st st2 i hi h hkin hm0 hwin hmax hprops
    simp only [runStructures] at h
    rcases hs : processStructure st s with e | st1
    · simp only [hs] at h
      exact Except.noConfusion h
    · simp only [hs] at h
      have hg1 := processStructure_ok_global hs
      have hkin1 : segmentationKey ∈ st1.volumes.map Prod.fst := by
        rw [processStructure_ok_map_fst hs]
        exact hkin
      cases i with
      | zero =>
        have hc : st.maxAddedFraction <
            newlyClaimedFraction st.globalVolumeFraction s := by
          simpa [claimedFractions, List.getD_cons_zero] using hwin
        have hcpos : 0 < newlyClaimedFraction st.globalVolumeFraction s :=
          lt_of_le_of_lt hm0 hc
        have hmactive : activeMask st s = true := by
          by_contra hma
          have hz : newlyClaimedFraction st.globalVolumeFraction s = 0 :=
            newlyClaimedFraction_inactive (fun hx => hma (activeMask_eq_true.mpr hx))
          rw [hz] at hcpos
          exact lt_irrefl 0 hcpos
        rcases hseg : s.props segmentationKey with _ | pv
        · exact absurd hseg hprops
        · obtain ⟨e1, e2⟩ := (processStructure_seg_step hseg hkin hs).1 ⟨hmactive, hc⟩
          have hrest : lookupVol st2.volumes segmentationKey =
              lookupVol st1.volumes segmentationKey ∧
              st2.maxAddedFraction = st1.maxAddedFraction := by
            apply runStructures_seg_no_beat rest st1 st2 h hkin1
            intro j hj
            rw [e2, hg1]
            have hx := hmax (j+1) (by simp only [List.length_cons]; omega)
              (Nat.succ_ne_zero j)
            have hx2 : (claimedFractions
                (st.globalVolumeFraction + newlyClaimedFraction st.globalVolumeFraction s)
                rest).getD j 0 < newlyClaimedFraction st.globalVolumeFraction s := by
              simpa [claimedFractions, List.getD_cons_succ, List.getD_cons_zero] using hx
            exact hx2.le
          constructor
          · rw [hrest.1, e1]
            simp [segLabel, hseg]
          · rw [hrest.2, e2]
            simp [claimedFractions, List.getD_cons_zero]
      | succ j =>
        have hj : j < rest.length := Nat.lt_of_succ_lt_succ hi
        have hwtail : (claimedFractions st.globalVolumeFraction (s :: rest)).getD (j+1) 0 =
            (claimedFractions
              (st.globalVolumeFraction + newlyClaimedFraction st.globalVolumeFraction s)
              rest).getD j 0 := by
          simp [claimedFractions, List.getD_cons_succ]
        have hc0lt : newlyClaimedFraction st.globalVolumeFraction s <
            (claimedFractions st.globalVolumeFraction (s :: rest)).getD (j+1) 0 := by
          have hx := hmax 0 (by simp only [List.length_cons]; omega) (by omega)
          simpa [claimedFractions, List.getD_cons_zero] using hx
        have hwin2 : st1.maxAddedFraction <
            (claimedFractions st1.globalVolumeFraction rest).getD j 0 := by
          rw [hg1, ← hwtail]
          rcases processStructure_max_cases hs with hm1 | hm1
          · rw [hm1]
            exact hwin
          · rw [hm1]
            exact hc0lt
        have hm01 : 0 ≤ st1.maxAddedFraction := by
          rcases processStructure_max_cases hs with hm1 | hm1
          · rw [hm1]
            exact hm0
          · rw [hm1]
            exact newlyClaimedFraction_nonneg _ _
        have hmax1 : ∀ k, k < rest.length → k ≠ j →
            (claimedFractions st1.globalVolumeFraction rest).getD k 0 <
              (claimedFractions st1.globalVolumeFraction rest).getD j 0 := by
          intro k hk hkj
          have hx := hmax (k+1) (by simp only [List.length_cons]; omega) (by omega)
          rw [hg1]
          have hktail : (claimedFractions st.globalVolumeFraction (s :: rest)).getD (k+1) 0 =
              (claimedFractions
                (st.globalVolumeFraction + newlyClaimedFraction st.globalVolumeFraction s)
                rest).getD k 0 := by
            simp [claimedFractions, List.getD_cons_succ]
          rw [hktail, hwtail] at hx
          exact hx
        have hprops1 : (rest.get ⟨j, hj⟩).props segmentationKey ≠ none := hprops
        obtain ⟨e1, e2⟩ := ih st1 st2 j hj h hkin1 hm01 hwin2 hmax1 hprops1
        constructor
        · exact e1
        · rw [e2, hg1, ← hwtail]

/-- C4.  Per structure step, for a structure carrying the segmentation
property: the segmentation output at the modelled voxel is overwritten with
the structure's label, and the maximum applied fraction is raised to the
newly-claimed fraction, exactly when the voxel is active and the
newly-claimed fraction strictly exceeds the maximum applied fraction so
far; otherwise both are unchanged.  Consequently, after a full run from the
zero-initialized state, the segmentation label is that of the structure
with the unique largest claimed fraction at the voxel (not necessarily the
last processed one), and the maximum applied fraction equals that
fraction. -/
theorem segmentation_ownership_by_largest_fraction :
    (∀ (st st2 : VoxelState) (s : Structure) (pv : PropValue),
      s.props segmentationKey = some pv →
      segmentationKey ∈ st.volumes.map Prod.fst →
      processStructure st s = .ok st2 →
      (((activeMask st s = true ∧
          st.maxAddedFraction < newlyClaimedFraction st.globalVolumeFraction s) →
        lookupVol st2.volumes segmentationKey = pv.val ∧
        st2.maxAddedFraction = newlyClaimedFraction st.globalVolumeFraction s) ∧
       (¬(activeMask st s = true ∧
          st.maxAddedFraction < newlyClaimedFraction st.globalVolumeFraction s) →
        lookupVol st2.volumes segmentationKey = lookupVol st.volumes segmentationKey ∧
        st2.maxAddedFraction = st.maxAddedFraction))) ∧
    (∀ (keys : List String) (L : List Structure) (st2 : VoxelState)
       (i : ℕ) (hi : i < L.length),
      segmentationKey ∈ keys →
      runStructures (initState keys) L = .ok st2 →
      0 < (claimedFractions 0 L).getD i 0 →
      (∀ j, j < L.length → j ≠ i →
        (claimedFractions 0 L).getD j 0 < (claimedFractions 0 L).getD i 0) →
      (L.get ⟨i, hi⟩).props segmentationKey ≠ none →
      lookupVol st2.volumes segmentationKey = segLabel (L.get ⟨i, hi⟩) ∧
      st2.maxAddedFraction = (claimedFractions 0 L).getD i 0) := by
  constructor
  · intro st st2 s pv hseg hkin h
    exact processStructure_seg_step hseg hkin h
  · intro keys L st2 i hi hmem h hwin hmax hprops
    have hkin : segmentationKey ∈ (initState keys).volumes.map Prod.fst := by
      rw [show (initState keys).volumes = createEmptyVolumes keys from rfl,
        map_fst_createEmptyVolumes]
      exact hmem
    exact runStructures_seg_winner L (initState keys) st2 i hi h hkin le_rfl hwin hmax hprops

/-! ### Counterexample and witnesses -/

/-- Counterexample to C3 as stated: the claim says the
unsupported-property-type error message identifies the offending property
key, but it does not — processing a structure whose
absorption property (key `mua`) has python type `str` raises the
`ValueError` whose message mentions the type `str` but not the key `mua`;
the very same message is raised when the offending key is named `sos`
instead, so the message cannot identify the key. -/
theorem unsupported_property_message_lacks_key :
    processStructure (initState ["mua"]) fixtureBadMua =
      .error (unsupportedPropertyMessage "str") ∧
    processStructure (initState ["sos"]) fixtureBadSos =
      .error (unsupportedPropertyMessage "str") ∧
    strContains (unsupportedPropertyMessage "str") "mua" = false ∧
    strContains (unsupportedPropertyMessage "str") "sos" = false ∧
    strContains (unsupportedPropertyMessage "str") "str" = true := by
  refine ⟨?_, ?_, by decide, by decide, by decide⟩
  · simp [processStructure, processKeys, processKey, activeMask, addedVolumeFraction,
      lookupVol, setVol, initState, createEmptyVolumes, segmentationKey,
      fixtureBadMua]
  · simp [processStructure, processKeys, processKey, activeMask, addedVolumeFraction,
      lookupVol, setVol, initState, createEmptyVolumes, segmentationKey,
      fixtureBadSos]

theorem unsupported_property_type_aborts_witness :
    ("mua" ∈ (initState ["mua"]).volumes.map Prod.fst) ∧
    ("mua" ≠ segmentationKey) ∧
    (fixtureBadMua.props "mua" = some (.other "str")) ∧
    (∃ t2, processStructure (initState ["mua"]) fixtureBadMua =
        .error (unsupportedPropertyMessage t2) ∧
      strContains (unsupportedPropertyMessage t2) t2 = true) :=
  ⟨by simp [initState, createEmptyVolumes], by decide,
   by simp [fixtureBadMua],
   @unsupported_property_type_aborts (initState ["mua"]) fixtureBadMua "mua" "str"
     (by simp [initState, createEmptyVolumes]) (by decide) (by simp [fixtureBadMua])⟩

theorem newly_claimed_fraction_formula_witness :
    ((0:ℚ) < fixtureFullNoProps.occupancy) ∧
    ((initState ["mua"]).globalVolumeFraction < 1) ∧
    (processStructure (initState ["mua"]) fixtureFullNoProps =
      .ok { volumes := [("mua", 0)], globalVolumeFraction := 1, maxAddedFraction := 0 }) ∧
    (((initState ["mua"]).globalVolumeFraction + fixtureFullNoProps.occupancy ≤ 1 →
      (1:ℚ) = (initState ["mua"]).globalVolumeFraction + fixtureFullNoProps.occupancy) ∧
     (1 < (initState ["mua"]).globalVolumeFraction + fixtureFullNoProps.occupancy →
      (1:ℚ) = (initState ["mua"]).globalVolumeFraction +
        min (1 - (initState ["mua"]).globalVolumeFraction) fixtureFullNoProps.occupancy)) ∧
    ((0:ℚ) < fixtureDoubleNoProps.occupancy) ∧
    (processStructure (initState ["mua"]) fixtureDoubleNoProps =
      .ok { volumes := [("mua", 0)], globalVolumeFraction := 1, maxAddedFraction := 0 }) ∧
    (((initState ["mua"]).globalVolumeFraction + fixtureDoubleNoProps.occupancy ≤ 1 →
      (1:ℚ) = (initState ["mua"]).globalVolumeFraction + fixtureDoubleNoProps.occupancy) ∧
     (1 < (initState ["mua"]).globalVolumeFraction + fixtureDoubleNoProps.occupancy →
      (1:ℚ) = (initState ["mua"]).globalVolumeFraction +
        min (1 - (initState ["mua"]).globalVolumeFraction) fixtureDoubleNoProps.occupancy)) := by
  have h1 : processStructure (initState ["mua"]) fixtureFullNoProps =
      .ok { volumes := [("mua", 0)], globalVolumeFraction := 1, maxAddedFraction := 0 } := by
    simp [processStructure, processKeys, processKey, activeMask, addedVolumeFraction,
      lookupVol, setVol, initState, createEmptyVolumes, fixtureFullNoProps]
  have h2 : processStructure (initState ["mua"]) fixtureDoubleNoProps =
      .ok { volumes := [("mua", 0)], globalVolumeFraction := 1, maxAddedFraction := 0 } := by
    simp [processStructure, processKeys, processKey, activeMask, addedVolumeFraction,
      lookupVol, setVol, initState, createEmptyVolumes, fixtureDoubleNoProps]
  refine ⟨by simp [fixtureFullNoProps], by simp [initState], h1, ?_,
    by simp [fixtureDoubleNoProps], h2, ?_⟩
  · exact newly_claimed_fraction_formula (by simp [fixtureFullNoProps])
      (by simp [initState]) h1
  · exact newly_claimed_fraction_formula (by simp [fixtureDoubleNoProps])
      (by simp [initState]) h2

theorem segmentation_ownership_witness :
    (segmentationKey ∈ [segmentationKey]) ∧
    (runStructures (initState [segmentationKey]) [fixtureSegSeven, fixtureSegNine] =
      .ok fixtureSegSevenState) ∧
    ((0:ℚ) <
      (claimedFractions 0 [fixtureSegSeven, fixtureSegNine]).getD 0 0) ∧
    (∀ j, j < 2 → j ≠ 0 →
      (claimedFractions 0 [fixtureSegSeven, fixtureSegNine]).getD j 0 <
        (claimedFractions 0 [fixtureSegSeven, fixtureSegNine]).getD 0 0) ∧
    (lookupVol fixtureSegSevenState.volumes segmentationKey =
       segLabel ([fixtureSegSeven, fixtureSegNine].get ⟨0, by simp⟩) ∧
     fixtureSegSevenState.maxAddedFraction =
       (claimedFractions 0 [fixtureSegSeven, fixtureSegNine]).getD 0 0) := by
  have hrun : runStructures (initState [segmentationKey]) [fixtureSegSeven, fixtureSegNine] =
      .ok fixtureSegSevenState := by
    simp [runStructures, processStructure, processKeys, processKey, activeMask,
      addedVolumeFraction, lookupVol, setVol, initState, createEmptyVolumes,
      fixtureSegSeven, fixtureSegNine, fixtureSegSevenState, PropValue.val]
  have hwin : (0:ℚ) <
      (claimedFractions 0 [fixtureSegSeven, fixtureSegNine]).getD 0 0 := by
    simp [claimedFractions, newlyClaimedFraction, fixtureSegSeven]
  have hmax : ∀ j, j < 2 → j ≠ 0 →
      (claimedFractions 0 [fixtureSegSeven, fixtureSegNine]).getD j 0 <
        (claimedFractions 0 [fixtureSegSeven, fixtureSegNine]).getD 0 0 := by
    intro j hj hne
    have hj1 : j = 1 := by omega
    subst hj1
    simp [claimedFractions, newlyClaimedFraction, fixtureSegSeven, fixtureSegNine]
  refine ⟨List.mem_cons_self _ _, hrun, hwin, hmax, ?_⟩
  exact segmentation_ownership_by_largest_fraction.2 [segmentationKey]
    [fixtureSegSeven, fixtureSegNine] fixtureSegSevenState 0 (by simp)
    (List.mem_cons_self _ _) hrun hwin hmax
    (by simp [fixtureSegSeven, segmentationKey])

theorem cumulative_occupancy_invariant_witness :
    (∀ s ∈ [fixtureFullNoProps], 0 ≤ s.occupancy ∧ s.occupancy ≤ 1) ∧
    (runStructures (initState ["mua"]) ([fixtureFullNoProps].take 1) =
      .ok { volumes := [("mua", 0)], globalVolumeFraction := 1, maxAddedFraction := 0 }) ∧
    ((0:ℚ) ≤ 1 ∧ (1:ℚ) ≤ 1) := by
  have hrun : runStructures (initState ["mua"]) ([fixtureFullNoProps].take 1) =
      .ok { volumes := [("mua", 0)], globalVolumeFraction := 1, maxAddedFraction := 0 } := by
    simp [runStructures, processStructure, processKeys, processKey, activeMask,
      addedVolumeFraction, lookupVol, setVol, initState, createEmptyVolumes,
      fixtureFullNoProps]
  refine ⟨by simp [fixtureFullNoProps], hrun, ?_⟩
  exact cumulative_occupancy_invariant ["mua"] [fixtureFullNoProps]
    (by simp [fixtureFullNoProps]) 1 _ hrun

theorem fully_claimed_voxel_closed_witness :
    (runStructures (initState [segmentationKey]) [fixtureSegSeven] =
      .ok fixtureSegSevenState) ∧
    (fixtureSegSevenState.globalVolumeFraction = 1) ∧
    (lookupVol fixtureSegSevenState.volumes segmentationKey = 7) ∧
    (processStructure fixtureSegSevenState fixtureSegNine = .ok fixtureSegSevenState) ∧
    (fixtureSegSevenState = fixtureSegSevenState) := by
  have hstep : processStructure fixtureSegSevenState fixtureSegNine =
      .ok fixtureSegSevenState := by
    simp [processStructure, processKeys, processKey, activeMask, addedVolumeFraction,
      lookupVol, setVol, fixtureSegNine, fixtureSegSevenState, PropValue.val]
  refine ⟨?_, rfl, by simp [fixtureSegSevenState, lookupVol], hstep,
    fully_claimed_voxel_closed rfl hstep⟩
  simp [runStructures, processStructure, processKeys, processKey, activeMask,
    addedVolumeFraction, lookupVol, setVol, initState, createEmptyVolumes,
    fixtureSegSeven, fixtureSegSevenState, PropValue.val]

theorem absent_property_untouched_witness :
    (fixtureFullNoProps.props "mua" = none) ∧
    (processStructure fixtureMuaFiveState fixtureFullNoProps =
      .ok { volumes := [("mua", 5)], globalVolumeFraction := 1, maxAddedFraction := 0 }) ∧
    (lookupVol [("mua", (5:ℚ))] "mua" = lookupVol fixtureMuaFiveState.volumes "mua") := by
  have hstep : processStructure fixtureMuaFiveState fixtureFullNoProps =
      .ok { volumes := [("mua", 5)], globalVolumeFraction := 1, maxAddedFraction := 0 } := by
    simp [processStructure, processKeys, processKey, activeMask, addedVolumeFraction,
      lookupVol, setVol, fixtureMuaFiveState, fixtureFullNoProps]
  refine ⟨rfl, hstep, ?_⟩
  exact absent_property_untouched rfl hstep

theorem composition_deterministic_witness :
    composition_deterministic
      { randomSeed := 42, dimVolumeXMm := 10, dimVolumeYMm := 10 }
      { randomSeed := 42, dimVolumeXMm := 10, dimVolumeYMm := 10 }
      { simulateDeformedLayers := true, deformedLayersSettings := none }
      { simulateDeformedLayers := true, deformedLayersSettings := none }
      ["mua"] ["mua"] [fixtureMuaTwo] [fixtureMuaTwo] rfl rfl rfl rfl =
    composition_deterministic
      { randomSeed := 42, dimVolumeXMm := 10, dimVolumeYMm := 10 }
      { randomSeed := 42, dimVolumeXMm := 10, dimVolumeYMm := 10 }
      { simulateDeformedLayers := true, deformedLayersSettings := none }
      { simulateDeformedLayers := true, deformedLayersSettings := none }
      ["mua"] ["mua"] [fixtureMuaTwo] [fixtureMuaTwo] rfl rfl rfl rfl := rfl

theorem untouched_voxel_remains_zero_witness :
    (∀ s ∈ [fixtureZeroOccupancy], s.occupancy = 0) ∧
    (runStructures (initState ["mua"]) [fixtureZeroOccupancy] =
      .ok (initState ["mua"])) ∧
    (initState ["mua"] = initState ["mua"] ∧
     createSimulationVolume ["mua"] [fixtureZeroOccupancy] =
       .ok (materializeOutputs (initState ["mua"]))) := by
  have hrun : runStructures (initState ["mua"]) [fixtureZeroOccupancy] =
      .ok (initState ["mua"]) := by
    simp [runStructures, processStructure, processKeys, processKey, activeMask,
      addedVolumeFraction, lookupVol, setVol, initState, createEmptyVolumes,
      fixtureZeroOccupancy]
  refine ⟨by simp [fixtureZeroOccupancy], hrun, ?_⟩
  exact untouched_voxel_remains_zero ["mua"] [fixtureZeroOccupancy]
    (by simp [fixtureZeroOccupancy]) _ hrun

theorem outputs_materialized_faithfully_witness :
    (runStructures (initState ["mua"]) [fixtureMuaTwo] =
      .ok { volumes := [("mua", 2)], globalVolumeFraction := 1, maxAddedFraction := 0 }) ∧
    (createSimulationVolume ["mua"] [fixtureMuaTwo] =
      .ok (materializeOutputs
        { volumes := [("mua", 2)], globalVolumeFraction := 1, maxAddedFraction := 0 }) ∧
     (materializeOutputs
        { volumes := [("mua", 2)], globalVolumeFraction := 1, maxAddedFraction := 0 }).values =
       [("mua", 2)] ∧
     (materializeOutputs
        { volumes := [("mua", 2)], globalVolumeFraction := 1, maxAddedFraction := 0 }).dtypeIsFloat64 =
       true ∧
     (materializeOutputs
        { volumes := [("mua", 2)], globalVolumeFraction := 1, maxAddedFraction := 0 }).onHost =
       true ∧
     (materializeOutputs
        { volumes := [("mua", 2)], globalVolumeFraction := 1, maxAddedFraction := 0 }).values.map
          Prod.fst = ["mua"]) := by
  have hrun : runStructures (initState ["mua"]) [fixtureMuaTwo] =
      .ok { volumes := [("mua", 2)], globalVolumeFraction := 1, maxAddedFraction := 0 } := by
    simp [runStructures, processStructure, processKeys, processKey, activeMask,
      addedVolumeFraction, lookupVol, setVol, initState, createEmptyVolumes,
      fixtureMuaTwo, segmentationKey, PropValue.val]
  exact ⟨hrun, outputs_materialized_faithfully ["mua"] [fixtureMuaTwo] _ hrun⟩

end ModelBasedAdapter
